import Mathlib

/-!
Shallow embedding of `src/wmx2obj.c` (wmx2obj: FF8 world-map geometry to
Wavefront OBJ converter).

Machine integers are modelled as `Nat` with explicit `% 2^w` / masking where
the C code wraps; the output stream is modelled as a `List ObjLine` of
structured lines (the exact text of a line is recovered by `render_line`);
the input stream is a byte accessor `Nat → Nat` together with an explicit
length for the end-of-file check that `fread` performs.  I/O write errors
(`ferror`) are not modelled: the sink always accepts, so the only failure
of the block decoder is the offset-table bound check.
-/

/-- Constant `SEGMENT_SIZE` = 0x9000. -/
def SEGMENT_SIZE : Nat := 0x9000

/-- Constant `SEGMENT_MAX`. -/
def SEGMENT_MAX : Nat := 834

/-- Constant `SEGMENTS_PER_ROW`. -/
def SEGMENTS_PER_ROW : Nat := 32

/-- Constant `SEGMENT_BOUNDS`. -/
def SEGMENT_BOUNDS : Nat := 8192

/-- Constant `BLOCKS_PER_SEGMENT`. -/
def BLOCKS_PER_SEGMENT : Nat := 16

/-- Constant `GROUP_ID_SIZE`. -/
def GROUP_ID_SIZE : Nat := 4

/-- Constant `BLOCK_OFFSET_SIZE`. -/
def BLOCK_OFFSET_SIZE : Nat := 4

/-- Constant `BLOCK_SIZE = SEGMENT_SIZE / BLOCKS_PER_SEGMENT` (= 2304). -/
def BLOCK_SIZE : Nat := SEGMENT_SIZE / BLOCKS_PER_SEGMENT

/-- Constant `BLOCK_OFFSET_MAX = SEGMENT_SIZE - BLOCK_SIZE` (= 34560). -/
def BLOCK_OFFSET_MAX : Nat := SEGMENT_SIZE - BLOCK_SIZE

/-- Constant `BLOCK_HEADER_SIZE`. -/
def BLOCK_HEADER_SIZE : Nat := 4

/-- Constant `BLOCKS_PER_ROW`. -/
def BLOCKS_PER_ROW : Nat := 4

/-- Constant `BLOCK_BOUNDS = SEGMENT_BOUNDS / BLOCKS_PER_ROW` (= 2048). -/
def BLOCK_BOUNDS : Nat := SEGMENT_BOUNDS / BLOCKS_PER_ROW

/-- Constant `POLYGON_SIZE`. -/
def POLYGON_SIZE : Nat := 16

/-- Constant `VERTEX_SIZE`. -/
def VERTEX_SIZE : Nat := 8

/-- The C `struct VertexIndexData { unsigned long int vert_max, prev_vert_max; }`. -/
structure VertexIndexData where
  vert_max : Nat
  prev_vert_max : Nat
deriving DecidableEq

/-- Function `limit_within_bounds`: `val <= BLOCK_BOUNDS ? val : (~val + 1) & 0xFFFF`.
`val` is a 32-bit `unsigned int` in the C source (always < 2^16 at call
sites), so `~val` is `2^32 - 1 - val` and the `+ 1` wraps modulo `2^32`. -/
def limit_within_bounds (val : Nat) : Nat :=
  if val ≤ BLOCK_BOUNDS then val else ((2 ^ 32 - 1 - val + 1) % 2 ^ 32) &&& 0xFFFF

/-- One output line: `v x y z` (coordinates stored as exact integer
thousandths, i.e. the value before the `* 0.001` scaling that the C code
applies just before printing with `%.3Lf`) or `f a b c`. -/
inductive ObjLine where
  | v (x y z : Nat)
  | f (a b c : Nat)
deriving DecidableEq

/-- Function `convert_vertex`: decode three little-endian 16-bit coordinates from the
8-byte record `b`, fold each into bounds, add the world offset to x and z,
and emit a `v` line.  The C code prints `(x+bx)*0.001`, `by*0.001`,
`(z+bz)*0.001`; the line stores the integer thousandths. -/
def convert_vertex (x z : Nat) (b : Nat → Nat) : ObjLine :=
  let bx := limit_within_bounds (b 0 ||| b 1 <<< 8)
  let b_y := limit_within_bounds (b 2 ||| b 3 <<< 8)
  let bz := limit_within_bounds (b 4 ||| b 5 <<< 8)
  ObjLine.v (x + bx) b_y (z + bz)

/-- Function `convert_polygon`: emit one `f` line from the first three bytes of the
16-byte record `b`; each printed index is `prev_vert_max + b i`, and after
printing each index the C code does `if (vert > vert_max) vert_max = vert`
(the loop over `i = 0,1,2` is unrolled here, `VERTICES_PER_POLYGON = 3`). -/
def convert_polygon (d : VertexIndexData) (b : Nat → Nat) : VertexIndexData × ObjLine :=
  let i0 := d.prev_vert_max + b 0
  let i1 := d.prev_vert_max + b 1
  let i2 := d.prev_vert_max + b 2
  let vm0 := if i0 > d.vert_max then i0 else d.vert_max
  let vm1 := if i1 > vm0 then i1 else vm0
  let vm2 := if i2 > vm1 then i2 else vm1
  ({ d with vert_max := vm2 }, ObjLine.f i0 i1 i2)

/-- The polygon loop of `convert_block`:
`for (i = 0; i != num_polys; ++i, buf += POLYGON_SIZE) convert_polygon(...)`,
reading records at `base`, `base + 16`, ... inside the segment `seg`. -/
def convert_polygons (seg : Nat → Nat) (base : Nat) (d : VertexIndexData) :
    Nat → VertexIndexData × List ObjLine
  | 0 => (d, [])
  | n + 1 =>
      let p := convert_polygon d (fun k => seg (base + k))
      let rest := convert_polygons seg (base + POLYGON_SIZE) p.1 n
      (rest.1, p.2 :: rest.2)

/-- The vertex loop of `convert_block`:
`for (i = 0; i != num_verts; ++i, buf += VERTEX_SIZE) convert_vertex(...)`,
reading records at `base`, `base + 8`, ... inside the segment `seg`. -/
def convert_vertices (seg : Nat → Nat) (base x z : Nat) : Nat → List ObjLine
  | 0 => []
  | n + 1 =>
      convert_vertex x z (fun k => seg (base + k)) ::
        convert_vertices seg (base + VERTEX_SIZE) x z n

/-- The one decode failure of `convert_block` (`"Block offset too large"`,
the spec's `InvalidBlockOffset`). -/
inductive BlockError where
  | InvalidBlockOffset
deriving DecidableEq

/-- Four-byte little-endian read at `i`:
`buf[0] | (buf[1] << 8) | (buf[2] << 16) | (buf[3] << 24)`. -/
def le32 (b : Nat → Nat) (i : Nat) : Nat :=
  b i ||| b (i + 1) <<< 8 ||| b (i + 2) <<< 16 ||| b (i + 3) <<< 24

/-- Function `convert_block`: read the offset-table entry at `GROUP_ID_SIZE +
pos * BLOCK_OFFSET_SIZE`, reject it when it exceeds `BLOCK_OFFSET_MAX`,
otherwise read `num_polys` and `num_verts` at the offset, add the block's
world offset to `x`/`z`, save `prev_vert_max = vert_max`, run the polygon
loop then the vertex loop, and finally `++vert_max` (unconditional padding).
Returns the updated counters and the lines written to the output. -/
def convert_block (pos x z : Nat) (d : VertexIndexData) (seg : Nat → Nat) :
    Except BlockError (VertexIndexData × List ObjLine) :=
  let offset_loc := GROUP_ID_SIZE + pos * BLOCK_OFFSET_SIZE
  let offset := le32 seg offset_loc
  if offset > BLOCK_OFFSET_MAX then
    Except.error BlockError.InvalidBlockOffset
  else
    let num_polys := seg offset
    let num_verts := seg (offset + 1)
    let base := offset + BLOCK_HEADER_SIZE
    let x' := x + pos % BLOCKS_PER_ROW * BLOCK_BOUNDS
    let z' := z + pos / BLOCKS_PER_ROW * BLOCK_BOUNDS
    let d1 : VertexIndexData := { d with prev_vert_max := d.vert_max }
    let pr := convert_polygons seg base d1 num_polys
    let vlines := convert_vertices seg (base + num_polys * POLYGON_SIZE) x' z' num_verts
    Except.ok ({ pr.1 with vert_max := pr.1.vert_max + 1 }, pr.2 ++ vlines)

/-- The block loop of `convert_segment`:
`for (i = 0; res && i != BLOCKS_PER_SEGMENT; ++i) res = convert_block(...)`,
over the listed block positions.  On a block failure the loop stops: the
lines already written by earlier blocks stay in the output, the counters
are left as the failing block left them (unchanged), and `res` is false. -/
def run_blocks (x z : Nat) (d : VertexIndexData) (seg : Nat → Nat) :
    List Nat → VertexIndexData × List ObjLine × Bool
  | [] => (d, [], true)
  | p :: ps =>
      match convert_block p x z d seg with
      | Except.error _ => (d, [], false)
      | Except.ok (d', ls) =>
          let rest := run_blocks x z d' seg ps
          (rest.1, ls ++ rest.2.1, rest.2.2)

/-- Function `convert_segment` after its `fread` succeeded: compute the segment's
world offset `x = pos % SEGMENTS_PER_ROW * SEGMENT_BOUNDS`,
`z = pos / SEGMENTS_PER_ROW * SEGMENT_BOUNDS` and run the 16 blocks in
order (the read itself is modelled in `run_segments`, which hands this
function the freshly filled buffer). -/
def convert_segment (pos : Nat) (d : VertexIndexData) (seg : Nat → Nat) :
    VertexIndexData × List ObjLine × Bool :=
  run_blocks (pos % SEGMENTS_PER_ROW * SEGMENT_BOUNDS)
    (pos / SEGMENTS_PER_ROW * SEGMENT_BOUNDS) d seg (List.range BLOCKS_PER_SEGMENT)

/-- The segment loop of `convert_to_obj`: process `count` segments, reading
each from the input `file` (of `flen` bytes) at byte position `fpos`; the
`fread` of `convert_segment` fails (the spec's `ReadError`) when fewer than
`SEGMENT_SIZE` bytes remain, which stops the run with `res = false`.  `j` is
the grid index passed to `convert_segment`. -/
def run_segments (file : Nat → Nat) (flen : Nat) :
    Nat → Nat → Nat → VertexIndexData → VertexIndexData × List ObjLine × Bool
  | 0, _, _, d => (d, [], true)
  | count + 1, fpos, j, d =>
      if flen < fpos + SEGMENT_SIZE then (d, [], false)
      else
        let r := convert_segment j d (fun k => file (fpos + k))
        if r.2.2 then
          let rest := run_segments file flen count (fpos + SEGMENT_SIZE) (j + 1) r.1
          (rest.1, r.2.1 ++ rest.2.1, rest.2.2)
        else (r.1, r.2.1, false)

/-- Function `convert_to_obj`: seek to `start * SEGMENT_SIZE`, initialize
`prev_vert_max = vert_max = 1`, choose the starting grid column
(`j = start % SEGMENTS_PER_ROW` when start and end rows differ, else 0),
and convert the `end - start + 1` segments in order. -/
def convert_to_obj (start endSeg : Nat) (file : Nat → Nat) (flen : Nat) :
    VertexIndexData × List ObjLine × Bool :=
  let z0 := start / SEGMENTS_PER_ROW
  let z1 := endSeg / SEGMENTS_PER_ROW
  let j := if z0 ≠ z1 then start % SEGMENTS_PER_ROW else 0
  run_segments file flen (endSeg + 1 - start) (start * SEGMENT_SIZE) j ⟨1, 1⟩

/-- Pad `n < 1000` to three decimal digits, as `%.3Lf` does after the
decimal point. -/
def pad3 (n : Nat) : String :=
  if n < 10 then "00" ++ toString n
  else if n < 100 then "0" ++ toString n
  else toString n

/-- Render an integer number of thousandths the way `%.3Lf` prints the
scaled coordinate.  All coordinates of this program are nonnegative integer
multiples of 0.001 small enough that the long-double multiply by `0.001L`
rounds to the exact 3-decimal string, so the text is determined by the
integer alone. -/
def fmt3 (n : Nat) : String :=
  toString (n / 1000) ++ "." ++ pad3 (n % 1000)

/-- The exact text of an output line (`fprintf` formats of the C source). -/
def render_line : ObjLine → String
  | ObjLine.v a b c => "v " ++ fmt3 a ++ " " ++ fmt3 b ++ " " ++ fmt3 c
  | ObjLine.f a b c => "f " ++ toString a ++ " " ++ toString b ++ " " ++ toString c

/-- Is this line a vertex (`v`) line? -/
def is_v_line : ObjLine → Bool
  | ObjLine.v _ _ _ => true
  | ObjLine.f _ _ _ => false

/-- Is this line a face (`f`) line? -/
def is_f_line : ObjLine → Bool
  | ObjLine.v _ _ _ => false
  | ObjLine.f _ _ _ => true

/-- The global vertex indices printed by `n` iterations of the polygon loop
when `prev_vert_max = p`: for the record at `base`, the indices
`p + buf[0]`, `p + buf[1]`, `p + buf[2]`, then the next record 16 bytes on. -/
def poly_indices (seg : Nat → Nat) (base p : Nat) : Nat → List Nat
  | 0 => []
  | n + 1 =>
      (p + seg base) :: (p + seg (base + 1)) :: (p + seg (base + 2)) ::
        poly_indices seg (base + POLYGON_SIZE) p n

/-- All global vertex indices referenced by the triangle records of the
block at position `pos`, when the run reaches the block with
`vert_max = p` (so the block sets `prev_vert_max = p`). -/
def block_ref_indices (pos p : Nat) (seg : Nat → Nat) : List Nat :=
  let offset := le32 seg (GROUP_ID_SIZE + pos * BLOCK_OFFSET_SIZE)
  poly_indices seg (offset + BLOCK_HEADER_SIZE) p (seg offset)

/-- The byte positions of the segment buffer that `convert_block` reads at
block position `pos`, in program order: the 4 offset-table bytes; then —
when the offset passes the bound check — the 2 header count bytes, the
first 3 bytes of each 16-byte triangle record, and the first 6 bytes of
each 8-byte vertex record.  (The C code applies no bound to these record
reads; this list makes the accessed positions observable.) -/
def block_read_positions (seg : Nat → Nat) (pos : Nat) : List Nat :=
  let offset_loc := GROUP_ID_SIZE + pos * BLOCK_OFFSET_SIZE
  let table := [offset_loc, offset_loc + 1, offset_loc + 2, offset_loc + 3]
  let offset := le32 seg offset_loc
  if offset > BLOCK_OFFSET_MAX then table
  else
    let num_polys := seg offset
    let num_verts := seg (offset + 1)
    let base := offset + BLOCK_HEADER_SIZE
    table ++ [offset, offset + 1] ++
      (((List.range num_polys).map fun i =>
        [base + i * POLYGON_SIZE, base + i * POLYGON_SIZE + 1,
          base + i * POLYGON_SIZE + 2]).flatten) ++
      (((List.range num_verts).map fun i =>
        ((List.range 6).map fun k =>
          base + num_polys * POLYGON_SIZE + i * VERTEX_SIZE + k)).flatten)

/-- A hand-built minimal input file of one 36864-byte segment: block 0's
offset-table entry points at byte 68, where the block stores 1 triangle
record (local indices 0, 1, 2) and 3 vertex records with coordinates
(1000, 2000, 1500), (100, 0, 2048), (2048, 5, 7); every other byte is 0,
so blocks 1–15 resolve to offset 0 with zero triangles and vertices. -/
def file7 : Nat → Nat := fun i =>
  if i = 4 then 68
  else if i = 68 then 1
  else if i = 69 then 3
  else if i = 73 then 1
  else if i = 74 then 2
  else if i = 88 then 232 else if i = 89 then 3
  else if i = 90 then 208 else if i = 91 then 7
  else if i = 92 then 220 else if i = 93 then 5
  else if i = 96 then 100
  else if i = 101 then 8
  else if i = 105 then 8
  else if i = 106 then 5
  else if i = 108 then 7
  else 0

/-- A segment whose block-0 offset-table entry is `255 << 24`, far above
`BLOCK_OFFSET_MAX`. -/
def seg_c3 : Nat → Nat := fun i => if i = 7 then 255 else 0

/-- A segment whose block-0 offset-table entry is exactly
`BLOCK_OFFSET_MAX` (34560 = 135 * 256), with `num_polys = 145` and
`num_verts = 0` stored at that offset: the bound check passes, yet the
triangle-record reads run past the end of the 36864-byte buffer (the last
record's reads are at bytes 36868-36870). -/
def seg_c8 : Nat → Nat := fun i =>
  if i = 5 then 135 else if i = 34560 then 145 else 0

/-- The three coordinates stored in a `v` line (zeros for an `f` line). -/
def v_fields : ObjLine → Nat × Nat × Nat
  | ObjLine.v a b c => (a, b, c)
  | ObjLine.f _ _ _ => (0, 0, 0)

lemma if_gt_eq_max (a b : Nat) : (if a > b then a else b) = max b a := by
  split <;> omega

lemma convert_polygon_eq (d : VertexIndexData) (b : Nat → Nat) :
    convert_polygon d b =
      (⟨max (max (max d.vert_max (d.prev_vert_max + b 0)) (d.prev_vert_max + b 1))
          (d.prev_vert_max + b 2), d.prev_vert_max⟩,
        ObjLine.f (d.prev_vert_max + b 0) (d.prev_vert_max + b 1) (d.prev_vert_max + b 2)) := by
  simp only [convert_polygon, if_gt_eq_max, Prod.mk.injEq, VertexIndexData.mk.injEq]

/-- C1: for every raw 16-bit value `v`, the fold-into-bounds operation
returns `v` itself when `v ≤ 2048`, and returns `(~v + 1) & 0xFFFF`
(two's-complement negation at 16 bits) when `v > 2048`; in particular
65535 folds to 1 and the boundary 2048 is used as-is. -/
theorem fold_into_bounds_spec (v : Nat) (hv : v ≤ 65535) :
    (v ≤ 2048 → limit_within_bounds v = v) ∧
    (2048 < v → limit_within_bounds v = (65535 - v + 1) &&& 0xFFFF) ∧
    limit_within_bounds 65535 = 1 ∧ limit_within_bounds 2048 = 2048 := by
  have hb : BLOCK_BOUNDS = 2048 := rfl
  have hmask : ∀ n : Nat, n &&& 0xFFFF = n % 65536 := fun n =>
    Nat.and_pow_two_sub_one_eq_mod n 16
  refine ⟨fun hle => ?_, fun hgt => ?_, by decide, by decide⟩
  · unfold limit_within_bounds
    rw [hb, if_pos hle]
  · unfold limit_within_bounds
    rw [hb, if_neg (by omega), hmask, hmask]
    have h32 : (2 : Nat) ^ 32 = 4294967296 := by norm_num
    rw [h32]
    have hv1 : 65535 - v + 1 = 65536 - v := by omega
    have hv2 : 4294967295 - v + 1 = 65536 - v + 65535 * 65536 := by omega
    rw [hv1, hv2,
      Nat.mod_eq_of_lt (show 65536 - v + 65535 * 65536 < 4294967296 by omega),
      Nat.add_mul_mod_self_right]

theorem fold_into_bounds_spec_witness :
    limit_within_bounds 65535 = 1 ∧ limit_within_bounds 2048 = 2048 := by
  have h := fold_into_bounds_spec 65535 (by decide)
  exact ⟨h.2.2.1, h.2.2.2⟩

/-- C2: each triangle record emits the face line `f (prev_vert_max + b 0)
(prev_vert_max + b 1) (prev_vert_max + b 2)` built from the raw bytes with
no range validation; `vert_max` becomes the maximum of its old value and
the three computed indices (strict-greater updates), so computed indices
that are at most the current `vert_max` — including exact ties — leave it
unchanged, and `prev_vert_max` is untouched. -/
theorem polygon_emission_spec (d : VertexIndexData) (b : Nat → Nat) :
    (convert_polygon d b).2 =
      ObjLine.f (d.prev_vert_max + b 0) (d.prev_vert_max + b 1) (d.prev_vert_max + b 2) ∧
    (convert_polygon d b).1.prev_vert_max = d.prev_vert_max ∧
    (convert_polygon d b).1.vert_max =
      max (max (max d.vert_max (d.prev_vert_max + b 0)) (d.prev_vert_max + b 1))
        (d.prev_vert_max + b 2) ∧
    (d.prev_vert_max + b 0 ≤ d.vert_max → d.prev_vert_max + b 1 ≤ d.vert_max →
      d.prev_vert_max + b 2 ≤ d.vert_max →
      (convert_polygon d b).1.vert_max = d.vert_max) := by
  rw [convert_polygon_eq]
  refine ⟨rfl, rfl, rfl, fun h0 h1 h2 => ?_⟩
  dsimp only
  omega

theorem polygon_emission_spec_witness :
    (convert_polygon ⟨5, 2⟩ (fun _ => 3)).1.vert_max = 5 ∧
    (convert_polygon ⟨5, 2⟩ (fun _ => 3)).2 = ObjLine.f 5 5 5 := by
  have h := polygon_emission_spec ⟨5, 2⟩ (fun _ => 3)
  exact ⟨h.2.2.2 (by decide) (by decide) (by decide), h.1⟩

/-- C9: only the x and z coordinates of an emitted vertex receive the world
offset; the y coordinate is the folded raw value alone, independent of the
offsets passed in. -/
theorem vertex_y_no_offset_spec (x z : Nat) (b : Nat → Nat) :
    convert_vertex x z b =
      ObjLine.v (x + (v_fields (convert_vertex 0 0 b)).1)
        (v_fields (convert_vertex 0 0 b)).2.1
        (z + (v_fields (convert_vertex 0 0 b)).2.2) := by
  simp [convert_vertex, v_fields]

lemma convert_polygons_fst (seg : Nat → Nat) (n : Nat) :
    ∀ base d, (convert_polygons seg base d n).1 =
      ⟨(poly_indices seg base d.prev_vert_max n).foldl max d.vert_max, d.prev_vert_max⟩ := by
  induction n with
  | zero => intro base d; rfl
  | succ n ih =>
      intro base d
      simp only [convert_polygons, poly_indices, List.foldl, ih, convert_polygon_eq, add_zero]

lemma convert_polygons_all_f (seg : Nat → Nat) (n : Nat) :
    ∀ base d l, l ∈ (convert_polygons seg base d n).2 → is_f_line l = true := by
  induction n with
  | zero => intro base d l h; simp [convert_polygons] at h
  | succ n ih =>
      intro base d l h
      simp only [convert_polygons, List.mem_cons] at h
      rcases h with h | h
      · rw [h, convert_polygon_eq]; rfl
      · exact ih _ _ _ h

lemma convert_vertices_all_v (seg : Nat → Nat) (x z : Nat) (n : Nat) :
    ∀ base l, l ∈ convert_vertices seg base x z n → is_v_line l = true := by
  induction n with
  | zero => intro base l h; simp [convert_vertices] at h
  | succ n ih =>
      intro base l h
      simp only [convert_vertices, List.mem_cons] at h
      rcases h with h | h
      · rw [h]; rfl
      · exact ih _ _ h

lemma le_foldl_max (l : List Nat) : ∀ v : Nat, v ≤ l.foldl max v := by
  induction l with
  | nil => intro v; exact Nat.le_refl v
  | cons a t ih =>
      intro v
      exact Nat.le_trans (Nat.le_max_left v a) (ih (max v a))

lemma foldl_max_init_le (v a : Nat) (l : List Nat) (h : v ≤ a) :
    List.foldl max v (a :: l) = List.foldl max 0 (a :: l) := by
  simp only [List.foldl]
  congr 1
  omega

lemma convert_block_error_iff (pos x z : Nat) (d : VertexIndexData) (seg : Nat → Nat) :
    convert_block pos x z d seg = Except.error BlockError.InvalidBlockOffset ↔
      BLOCK_OFFSET_MAX < le32 seg (GROUP_ID_SIZE + pos * BLOCK_OFFSET_SIZE) := by
  by_cases h : BLOCK_OFFSET_MAX < le32 seg (GROUP_ID_SIZE + pos * BLOCK_OFFSET_SIZE) <;>
    simp [convert_block, h]

lemma convert_block_ok_elim {pos x z : Nat} {d : VertexIndexData} {seg : Nat → Nat}
    {d' : VertexIndexData} {ls : List ObjLine}
    (h : convert_block pos x z d seg = Except.ok (d', ls)) :
    le32 seg (GROUP_ID_SIZE + pos * BLOCK_OFFSET_SIZE) ≤ BLOCK_OFFSET_MAX ∧
    d' = ⟨(convert_polygons seg
        (le32 seg (GROUP_ID_SIZE + pos * BLOCK_OFFSET_SIZE) + BLOCK_HEADER_SIZE)
        ⟨d.vert_max, d.vert_max⟩
        (seg (le32 seg (GROUP_ID_SIZE + pos * BLOCK_OFFSET_SIZE)))).1.vert_max + 1,
      (convert_polygons seg
        (le32 seg (GROUP_ID_SIZE + pos * BLOCK_OFFSET_SIZE) + BLOCK_HEADER_SIZE)
        ⟨d.vert_max, d.vert_max⟩
        (seg (le32 seg (GROUP_ID_SIZE + pos * BLOCK_OFFSET_SIZE)))).1.prev_vert_max⟩ ∧
    ls = (convert_polygons seg
        (le32 seg (GROUP_ID_SIZE + pos * BLOCK_OFFSET_SIZE) + BLOCK_HEADER_SIZE)
        ⟨d.vert_max, d.vert_max⟩
        (seg (le32 seg (GROUP_ID_SIZE + pos * BLOCK_OFFSET_SIZE)))).2 ++
      convert_vertices seg
        (le32 seg (GROUP_ID_SIZE + pos * BLOCK_OFFSET_SIZE) + BLOCK_HEADER_SIZE +
          seg (le32 seg (GROUP_ID_SIZE + pos * BLOCK_OFFSET_SIZE)) * POLYGON_SIZE)
        (x + pos % BLOCKS_PER_ROW * BLOCK_BOUNDS)
        (z + pos / BLOCKS_PER_ROW * BLOCK_BOUNDS)
        (seg (le32 seg (GROUP_ID_SIZE + pos * BLOCK_OFFSET_SIZE) + 1)) := by
  by_cases hoff : BLOCK_OFFSET_MAX < le32 seg (GROUP_ID_SIZE + pos * BLOCK_OFFSET_SIZE)
  · rw [convert_block] at h
    simp only [hoff, if_pos, gt_iff_lt] at h
    exact absurd h (by simp)
  · rw [convert_block] at h
    simp only [gt_iff_lt, hoff, if_neg, if_false] at h
    rw [Except.ok.injEq, Prod.mk.injEq] at h
    exact ⟨Nat.le_of_not_lt hoff, h.1.symm, h.2.symm⟩

lemma not_f_of_v (l : ObjLine) (h : is_v_line l = true) : ¬ is_f_line l = true := by
  cases l <;> simp_all [is_v_line, is_f_line]

lemma not_v_of_f (l : ObjLine) (h : is_f_line l = true) : ¬ is_v_line l = true := by
  cases l <;> simp_all [is_v_line, is_f_line]

lemma filter_split (fl vl : List ObjLine)
    (hf : ∀ l ∈ fl, is_f_line l = true) (hv : ∀ l ∈ vl, is_v_line l = true) :
    (fl ++ vl).filter is_f_line = fl ∧ (fl ++ vl).filter is_v_line = vl := by
  constructor
  · rw [List.filter_append, List.filter_eq_self.mpr hf,
      List.filter_eq_nil_iff.mpr (fun l hl => not_f_of_v l (hv l hl)), List.append_nil]
  · rw [List.filter_append, List.filter_eq_self.mpr hv,
      List.filter_eq_nil_iff.mpr (fun l hl => not_v_of_f l (hf l hl)), List.nil_append]

/-- C10: the lines a successfully decoded block writes are all of its `f`
lines followed by all of its `v` lines (the polygon loop runs before the
vertex loop), so each face line references vertex lines that appear later
in the output. -/
theorem faces_before_vertices_spec (pos x z : Nat) (d : VertexIndexData) (seg : Nat → Nat)
    (d' : VertexIndexData) (ls : List ObjLine)
    (h : convert_block pos x z d seg = Except.ok (d', ls)) :
    ls = ls.filter is_f_line ++ ls.filter is_v_line := by
  obtain ⟨-, -, hls⟩ := convert_block_ok_elim h
  rw [hls,
    (filter_split _ _ (convert_polygons_all_f _ _ _ _) (convert_vertices_all_v _ _ _ _ _)).1,
    (filter_split _ _ (convert_polygons_all_f _ _ _ _) (convert_vertices_all_v _ _ _ _ _)).2]

theorem faces_before_vertices_spec_witness :
    ([ObjLine.f 1 2 3, ObjLine.v 1000 2000 1500, ObjLine.v 100 0 2048,
        ObjLine.v 2048 5 7] : List ObjLine) =
      ([ObjLine.f 1 2 3, ObjLine.v 1000 2000 1500, ObjLine.v 100 0 2048,
        ObjLine.v 2048 5 7] : List ObjLine).filter is_f_line ++
      ([ObjLine.f 1 2 3, ObjLine.v 1000 2000 1500, ObjLine.v 100 0 2048,
        ObjLine.v 2048 5 7] : List ObjLine).filter is_v_line :=
  faces_before_vertices_spec 0 0 0 ⟨1, 1⟩ file7 ⟨4, 1⟩
    [ObjLine.f 1 2 3, ObjLine.v 1000 2000 1500, ObjLine.v 100 0 2048,
      ObjLine.v 2048 5 7] rfl

/-- C6: for a segment grid index `i ≤ 834` and block position `pos < 16`,
the vertex lines of the block are produced by the vertex loop with world
offset `(i % 32 * 8192 + pos % 4 * 2048, i / 32 * 8192 + pos / 4 * 2048)`
— the segment offset plus the block offset, with integer `/` and `%`. -/
theorem block_world_offset_spec (i pos : Nat) (d : VertexIndexData) (seg : Nat → Nat)
    (d' : VertexIndexData) (ls : List ObjLine)
    (hi : i ≤ SEGMENT_MAX) (hp : pos < BLOCKS_PER_SEGMENT)
    (h : convert_block pos (i % SEGMENTS_PER_ROW * SEGMENT_BOUNDS)
      (i / SEGMENTS_PER_ROW * SEGMENT_BOUNDS) d seg = Except.ok (d', ls)) :
    ls.filter is_v_line =
      convert_vertices seg
        (le32 seg (GROUP_ID_SIZE + pos * BLOCK_OFFSET_SIZE) + BLOCK_HEADER_SIZE +
          seg (le32 seg (GROUP_ID_SIZE + pos * BLOCK_OFFSET_SIZE)) * POLYGON_SIZE)
        (i % SEGMENTS_PER_ROW * SEGMENT_BOUNDS + pos % BLOCKS_PER_ROW * BLOCK_BOUNDS)
        (i / SEGMENTS_PER_ROW * SEGMENT_BOUNDS + pos / BLOCKS_PER_ROW * BLOCK_BOUNDS)
        (seg (le32 seg (GROUP_ID_SIZE + pos * BLOCK_OFFSET_SIZE) + 1)) := by
  obtain ⟨-, -, hls⟩ := convert_block_ok_elim h
  rw [hls,
    (filter_split _ _ (convert_polygons_all_f _ _ _ _) (convert_vertices_all_v _ _ _ _ _)).2]

theorem block_world_offset_spec_witness :
    ([ObjLine.v 1000 2000 1500, ObjLine.v 100 0 2048, ObjLine.v 2048 5 7] :
        List ObjLine) =
      convert_vertices file7 88 0 0 3 :=
  block_world_offset_spec 0 0 ⟨1, 1⟩ file7 ⟨4, 1⟩
    [ObjLine.f 1 2 3, ObjLine.v 1000 2000 1500, ObjLine.v 100 0 2048,
      ObjLine.v 2048 5 7] (by decide) (by decide) rfl

/-- C4: for a block with at least one triangle record, the value of
`vert_max` immediately after the block's vertices are processed — i.e. the
final `vert_max` before the `++vert_max` padding, so `d'.vert_max - 1`
stated as `d'.vert_max = … + 1` — equals the maximum global vertex index
referenced by the block's triangle records. -/
theorem block_vert_max_spec (pos x z : Nat) (d : VertexIndexData) (seg : Nat → Nat)
    (d' : VertexIndexData) (ls : List ObjLine)
    (h : convert_block pos x z d seg = Except.ok (d', ls))
    (hnp : seg (le32 seg (GROUP_ID_SIZE + pos * BLOCK_OFFSET_SIZE)) ≠ 0) :
    d'.vert_max = (block_ref_indices pos d.vert_max seg).foldl max 0 + 1 := by
  obtain ⟨-, hd, -⟩ := convert_block_ok_elim h
  rw [hd]
  rw [convert_polygons_fst]
  show (poly_indices seg _ (⟨d.vert_max, d.vert_max⟩ : VertexIndexData).prev_vert_max
      (seg (le32 seg (GROUP_ID_SIZE + pos * BLOCK_OFFSET_SIZE)))).foldl max
      (⟨d.vert_max, d.vert_max⟩ : VertexIndexData).vert_max + 1 = _
  obtain ⟨m, hm⟩ := Nat.exists_eq_succ_of_ne_zero hnp
  rw [block_ref_indices, hm]
  simp only [poly_indices]
  rw [foldl_max_init_le _ _ _ (Nat.le_add_right _ _)]

lemma range_split (p n : Nat) (h : p < n) :
    List.range n = List.range p ++ p :: List.range' (p + 1) (n - p - 1) := by
  rw [List.range_eq_range', List.range_eq_range']
  have happ := List.range'_append 0 p (n - p) 1
  rw [Nat.zero_add, Nat.one_mul] at happ
  have h2 : (n - p) + p = n := by omega
  rw [h2, show n - p = (n - p - 1) + 1 from by omega, List.range'_succ] at happ
  exact happ.symm

lemma run_blocks_append (x z : Nat) (seg : Nat → Nat) (l₁ l₂ : List Nat) :
    ∀ d, run_blocks x z d seg (l₁ ++ l₂) =
      if (run_blocks x z d seg l₁).2.2 then
        ((run_blocks x z (run_blocks x z d seg l₁).1 seg l₂).1,
          (run_blocks x z d seg l₁).2.1 ++
            (run_blocks x z (run_blocks x z d seg l₁).1 seg l₂).2.1,
          (run_blocks x z (run_blocks x z d seg l₁).1 seg l₂).2.2)
      else run_blocks x z d seg l₁ := by
  induction l₁ with
  | nil => intro d; simp [run_blocks]
  | cons p ps ih =>
      intro d
      rw [List.cons_append]
      cases hcb : convert_block p x z d seg with
      | error e => simp [run_blocks, hcb]
      | ok r =>
          obtain ⟨d', ls⟩ := r
          simp only [run_blocks, hcb]
          rw [ih d']
          by_cases hres : (run_blocks x z d' seg ps).2.2 = true
          · simp [hres, List.append_assoc]
          · simp [hres]

lemma run_blocks_res_true (x z : Nat) (seg : Nat → Nat) (l : List Nat) :
    ∀ d, (∀ p ∈ l, le32 seg (GROUP_ID_SIZE + p * BLOCK_OFFSET_SIZE) ≤ BLOCK_OFFSET_MAX) →
      (run_blocks x z d seg l).2.2 = true := by
  induction l with
  | nil => intro d _; rfl
  | cons p ps ih =>
      intro d hgood
      cases hcb : convert_block p x z d seg with
      | error e =>
          cases e
          exact absurd ((convert_block_error_iff p x z d seg).mp hcb)
            (Nat.not_lt.mpr (hgood p (List.mem_cons_self p ps)))
      | ok r =>
          obtain ⟨d', ls⟩ := r
          simp only [run_blocks, hcb]
          exact ih d' (fun q hq => hgood q (List.mem_cons_of_mem p hq))

/-- C3: `convert_block` fails with `InvalidBlockOffset` exactly when the
4-byte little-endian offset-table entry at byte `4 + pos*4` of the segment
exceeds `SEGMENT_SIZE - BLOCK_SIZE`; and when block `p` is the first block
of a segment with such an entry, the segment's conversion stops with
failure, its output being exactly the lines of the blocks before `p`. -/
theorem invalid_block_offset_spec :
    (∀ pos x z d seg,
      convert_block pos x z d seg = Except.error BlockError.InvalidBlockOffset ↔
        SEGMENT_SIZE - BLOCK_SIZE < le32 seg (GROUP_ID_SIZE + pos * BLOCK_OFFSET_SIZE)) ∧
    (∀ i d seg p, p < BLOCKS_PER_SEGMENT →
      (∀ q, q < p →
        le32 seg (GROUP_ID_SIZE + q * BLOCK_OFFSET_SIZE) ≤ SEGMENT_SIZE - BLOCK_SIZE) →
      SEGMENT_SIZE - BLOCK_SIZE < le32 seg (GROUP_ID_SIZE + p * BLOCK_OFFSET_SIZE) →
      convert_segment i d seg =
        ((run_blocks (i % SEGMENTS_PER_ROW * SEGMENT_BOUNDS)
            (i / SEGMENTS_PER_ROW * SEGMENT_BOUNDS) d seg (List.range p)).1,
          (run_blocks (i % SEGMENTS_PER_ROW * SEGMENT_BOUNDS)
            (i / SEGMENTS_PER_ROW * SEGMENT_BOUNDS) d seg (List.range p)).2.1,
          false)) := by
  constructor
  · intro pos x z d seg
    exact convert_block_error_iff pos x z d seg
  · intro i d seg p hp hgood hbad
    show run_blocks _ _ d seg (List.range BLOCKS_PER_SEGMENT) = _
    rw [range_split p BLOCKS_PER_SEGMENT hp]
    rw [run_blocks_append]
    have hres : (run_blocks (i % SEGMENTS_PER_ROW * SEGMENT_BOUNDS)
        (i / SEGMENTS_PER_ROW * SEGMENT_BOUNDS) d seg (List.range p)).2.2 = true :=
      run_blocks_res_true _ _ seg (List.range p) d
        (fun q hq => hgood q (List.mem_range.mp hq))
    rw [hres, if_pos rfl]
    have herr : convert_block p (i % SEGMENTS_PER_ROW * SEGMENT_BOUNDS)
        (i / SEGMENTS_PER_ROW * SEGMENT_BOUNDS)
        (run_blocks (i % SEGMENTS_PER_ROW * SEGMENT_BOUNDS)
          (i / SEGMENTS_PER_ROW * SEGMENT_BOUNDS) d seg (List.range p)).1 seg =
        Except.error BlockError.InvalidBlockOffset :=
      (convert_block_error_iff _ _ _ _ _).mpr hbad
    simp only [run_blocks, herr, List.append_nil]

theorem invalid_block_offset_spec_witness :
    (convert_block 0 0 0 ⟨1, 1⟩ seg_c3 = Except.error BlockError.InvalidBlockOffset) ∧
    convert_segment 0 ⟨1, 1⟩ seg_c3 = (⟨1, 1⟩, [], false) :=
  ⟨(invalid_block_offset_spec.1 0 0 0 ⟨1, 1⟩ seg_c3).mpr (by decide),
    (invalid_block_offset_spec.2 0 ⟨1, 1⟩ seg_c3 0 (by decide)
      (fun q hq => absurd hq (Nat.not_lt_zero q)) (by decide)).trans (by decide)⟩

lemma convert_block_state {pos x z : Nat} {d : VertexIndexData} {seg : Nat → Nat}
    {d' : VertexIndexData} {ls : List ObjLine}
    (h : convert_block pos x z d seg = Except.ok (d', ls)) :
    d'.prev_vert_max = d.vert_max ∧ d.vert_max + 1 ≤ d'.vert_max := by
  obtain ⟨-, hd, -⟩ := convert_block_ok_elim h
  rw [hd]
  constructor
  · rw [convert_polygons_fst]
  · rw [convert_polygons_fst]
    exact Nat.add_le_add_right (le_foldl_max _ _) 1

lemma run_blocks_mono (x z : Nat) (seg : Nat → Nat) (l : List Nat) :
    ∀ d : VertexIndexData, d.prev_vert_max ≤ d.vert_max →
      d.vert_max ≤ (run_blocks x z d seg l).1.vert_max ∧
      d.prev_vert_max ≤ (run_blocks x z d seg l).1.prev_vert_max ∧
      (run_blocks x z d seg l).1.prev_vert_max ≤ (run_blocks x z d seg l).1.vert_max := by
  induction l with
  | nil => intro d hd; exact ⟨Nat.le_refl _, Nat.le_refl _, hd⟩
  | cons p ps ih =>
      intro d hd
      cases hcb : convert_block p x z d seg with
      | error e =>
          simp only [run_blocks, hcb]
          exact ⟨Nat.le_refl _, Nat.le_refl _, hd⟩
      | ok r =>
          obtain ⟨d', ls⟩ := r
          simp only [run_blocks, hcb]
          obtain ⟨hprev, hvm⟩ := convert_block_state hcb
          obtain ⟨a, b, c⟩ := ih d' (by omega)
          exact ⟨by omega, by omega, c⟩

lemma run_segments_mono (file : Nat → Nat) (flen : Nat) :
    ∀ count fpos j (d : VertexIndexData), d.prev_vert_max ≤ d.vert_max →
      d.vert_max ≤ (run_segments file flen count fpos j d).1.vert_max ∧
      d.prev_vert_max ≤ (run_segments file flen count fpos j d).1.prev_vert_max ∧
      (run_segments file flen count fpos j d).1.prev_vert_max ≤
        (run_segments file flen count fpos j d).1.vert_max := by
  intro count
  induction count with
  | zero => intro fpos j d hd; exact ⟨Nat.le_refl _, Nat.le_refl _, hd⟩
  | succ n ih =>
      intro fpos j d hd
      simp only [run_segments]
      by_cases hr : flen < fpos + SEGMENT_SIZE
      · simp only [if_pos hr]
        exact ⟨Nat.le_refl _, Nat.le_refl _, hd⟩
      · simp only [if_neg hr]
        have hseg : d.vert_max ≤ (convert_segment j d (fun k => file (fpos + k))).1.vert_max ∧
            d.prev_vert_max ≤
              (convert_segment j d (fun k => file (fpos + k))).1.prev_vert_max ∧
            (convert_segment j d (fun k => file (fpos + k))).1.prev_vert_max ≤
              (convert_segment j d (fun k => file (fpos + k))).1.vert_max :=
          run_blocks_mono _ _ (fun k => file (fpos + k)) (List.range BLOCKS_PER_SEGMENT) d hd
        by_cases hres : (convert_segment j d (fun k => file (fpos + k))).2.2 = true
        · simp only [hres, if_true]
          obtain ⟨a, b, c⟩ :=
            ih (fpos + SEGMENT_SIZE) (j + 1)
              (convert_segment j d (fun k => file (fpos + k))).1 hseg.2.2
          exact ⟨Nat.le_trans hseg.1 a, Nat.le_trans hseg.2.1 b, c⟩
        · simp only [hres, if_false]
          exact hseg

/-- C5: `vert_max` and `prev_vert_max` never decrease across a block or a
segment and `prev_vert_max ≤ vert_max` is preserved (so, by composition of
the per-step facts, across a whole run started from `(1, 1)`); each block
sets `prev_vert_max` to the `vert_max` it entered with, and leaves
`vert_max` equal to the polygon loop's result plus exactly 1 (the padding
increment, independent of the vertex count). -/
theorem counters_monotone_spec :
    (∀ pos x z (d : VertexIndexData) seg d' ls, d.prev_vert_max ≤ d.vert_max →
      convert_block pos x z d seg = Except.ok (d', ls) →
      d.vert_max ≤ d'.vert_max ∧ d.prev_vert_max ≤ d'.prev_vert_max ∧
      d'.prev_vert_max ≤ d'.vert_max ∧ d'.prev_vert_max = d.vert_max ∧
      d'.vert_max = (convert_polygons seg
          (le32 seg (GROUP_ID_SIZE + pos * BLOCK_OFFSET_SIZE) + BLOCK_HEADER_SIZE)
          ⟨d.vert_max, d.vert_max⟩
          (seg (le32 seg (GROUP_ID_SIZE + pos * BLOCK_OFFSET_SIZE)))).1.vert_max + 1) ∧
    (∀ i (d : VertexIndexData) seg, d.prev_vert_max ≤ d.vert_max →
      d.vert_max ≤ (convert_segment i d seg).1.vert_max ∧
      d.prev_vert_max ≤ (convert_segment i d seg).1.prev_vert_max ∧
      (convert_segment i d seg).1.prev_vert_max ≤ (convert_segment i d seg).1.vert_max) ∧
    (∀ start endSeg file flen,
      1 ≤ (convert_to_obj start endSeg file flen).1.vert_max ∧
      1 ≤ (convert_to_obj start endSeg file flen).1.prev_vert_max ∧
      (convert_to_obj start endSeg file flen).1.prev_vert_max ≤
        (convert_to_obj start endSeg file flen).1.vert_max) := by
  refine ⟨?_, ?_, ?_⟩
  · intro pos x z d seg d' ls hd h
    obtain ⟨hprev, hvm⟩ := convert_block_state h
    obtain ⟨-, hdeq, -⟩ := convert_block_ok_elim h
    refine ⟨by omega, by omega, by omega, hprev, ?_⟩
    rw [hdeq]
  · intro i d seg hd
    exact run_blocks_mono _ _ seg (List.range BLOCKS_PER_SEGMENT) d hd
  · intro s e file flen
    have h := run_segments_mono file flen (e + 1 - s) (s * SEGMENT_SIZE)
      (if s / SEGMENTS_PER_ROW ≠ e / SEGMENTS_PER_ROW then s % SEGMENTS_PER_ROW else 0)
      ⟨1, 1⟩ (Nat.le_refl 1)
    exact ⟨h.1, h.2.1, h.2.2⟩

theorem counters_monotone_spec_witness :
    (⟨1, 1⟩ : VertexIndexData).vert_max ≤ (⟨4, 1⟩ : VertexIndexData).vert_max ∧
    (⟨4, 1⟩ : VertexIndexData).prev_vert_max = (⟨1, 1⟩ : VertexIndexData).vert_max := by
  have h := counters_monotone_spec.1 0 0 0 ⟨1, 1⟩ file7 ⟨4, 1⟩
    [ObjLine.f 1 2 3, ObjLine.v 1000 2000 1500, ObjLine.v 100 0 2048, ObjLine.v 2048 5 7]
    (Nat.le_refl 1) rfl
  exact ⟨h.1, h.2.2.2.1⟩

theorem block_vert_max_spec_witness :
    (⟨4, 1⟩ : VertexIndexData).vert_max =
      (block_ref_indices 0 1 file7).foldl max 0 + 1 := by
  have h := block_vert_max_spec 0 0 0 ⟨1, 1⟩ file7 ⟨4, 1⟩
    [ObjLine.f 1 2 3, ObjLine.v 1000 2000 1500, ObjLine.v 100 0 2048, ObjLine.v 2048 5 7]
    rfl (by decide)
  exact h

/-- C7: the hand-built one-segment input `file7` (one block holding one
triangle over local indices 0, 1, 2 and three vertices (1000, 2000, 1500),
(100, 0, 2048), (2048, 5, 7)) converts successfully to exactly three `v`
lines with the 0.001-scaled, 3-decimal coordinates and exactly one face
line `f 1 2 3` (global numbering starting at 1). -/
theorem minimal_round_trip_spec :
    convert_to_obj 0 0 file7 SEGMENT_SIZE =
      (⟨19, 18⟩,
        [ObjLine.f 1 2 3, ObjLine.v 1000 2000 1500, ObjLine.v 100 0 2048,
          ObjLine.v 2048 5 7], true) ∧
    ([ObjLine.f 1 2 3, ObjLine.v 1000 2000 1500, ObjLine.v 100 0 2048,
        ObjLine.v 2048 5 7].filter is_v_line =
      [ObjLine.v 1000 2000 1500, ObjLine.v 100 0 2048, ObjLine.v 2048 5 7]) ∧
    ([ObjLine.f 1 2 3, ObjLine.v 1000 2000 1500, ObjLine.v 100 0 2048,
        ObjLine.v 2048 5 7].filter is_f_line = [ObjLine.f 1 2 3]) ∧
    ([ObjLine.v 1000 2000 1500, ObjLine.v 100 0 2048, ObjLine.v 2048 5 7].map
        render_line =
      ["v 1.000 2.000 1.500", "v 0.100 0.000 2.048", "v 2.048 0.005 0.007"]) ∧
    [ObjLine.f 1 2 3].map render_line = ["f 1 2 3"] :=
  ⟨rfl, rfl, rfl, rfl, rfl⟩

/-- C8: a segment (`seg_c8`) whose block-0 offset-table entry is exactly
`BLOCK_OFFSET_MAX` passes the offset check (the block does not fail with
`InvalidBlockOffset`, the decoder's only failure), yet with
`num_polys = 145` the triangle-record reads reach byte position 36868,
at/beyond the end of the `SEGMENT_SIZE`-byte buffer: the decoder bounds
neither `num_polys` nor `num_verts`. -/
theorem record_reads_out_of_bounds_spec :
    le32 seg_c8 (GROUP_ID_SIZE + 0 * BLOCK_OFFSET_SIZE) = BLOCK_OFFSET_MAX ∧
    convert_block 0 0 0 ⟨1, 1⟩ seg_c8 ≠ Except.error BlockError.InvalidBlockOffset ∧
    36868 ∈ block_read_positions seg_c8 0 ∧ SEGMENT_SIZE ≤ 36868 := by
  refine ⟨by decide, fun h => ?_, ?_, by decide⟩
  · exact absurd ((convert_block_error_iff 0 0 0 ⟨1, 1⟩ seg_c8).mp h) (by decide)
  · simp only [block_read_positions]
    rw [if_neg (by decide)]
    refine List.mem_append.mpr (Or.inl (List.mem_append.mpr (Or.inr ?_)))
    refine List.mem_flatten.mpr ⟨[36868, 36869, 36870], ?_, by decide⟩
    exact List.mem_map.mpr ⟨144, List.mem_range.mpr (by decide), by decide⟩
